import Mathlib

/-!
Verification of the video-normalization and transition-compositing core of
the ComfyUI_MovisAdapter repository (`video_types.py`, `transitions.py`,
`concatenate_node.py`).

Clips are modelled by their metadata (duration, frame rate, frame size, all
exact: durations and rates as rationals, pixel sizes as naturals) together
with a `Content` tree recording how the clip was built from the source
clips.  The MoviePy clip library is an external collaborator of the
repository; its primitives (`subclip`, `crossfadein`, `concatenate_videoclips`,
`CompositeVideoClip`, ...) are modelled here according to their documented
behaviour, and every repository function is translated statement by
statement from the Python source.
-/

namespace MovisAdapter

/-- A linear position function `t ↦ (x0 + x1 * t, y)`, the shape of every
`set_position` lambda used in `transitions.py`. -/
structure Pos where
  x0 : ℚ
  x1 : ℚ
  y : ℚ
deriving Repr

/-- Provenance tree of a clip: which MoviePy constructions produced it from
the source clips.  Purely syntactic; it lets theorems talk about the
structure of a composited timeline. -/
inductive Content where
  | source (id : ℕ)
  | subclipOf (c : Content) (a b : ℚ)
  | crossfadeinOf (c : Content) (d : ℚ)
  | crossfadeoutOf (c : Content) (d : ℚ)
  | fadeinOf (c : Content) (d : ℚ) (r g b : ℕ)
  | fadeoutOf (c : Content) (d : ℚ) (r g b : ℕ)
  | positionedOf (c : Content) (p : Pos)
  | composite2 (outgoing incoming : Content)
  | concatOf (cs : List Content) (padding : ℚ)
  | resizedOf (c : Content) (w h : ℕ)
  | withFps (c : Content) (f : ℚ)
deriving Repr

/-- Model of a MoviePy `VideoClip`: duration in seconds, frame rate, frame
width and height in pixels, and the provenance of its pixel content. -/
structure Clip where
  duration : ℚ
  fps : ℚ
  w : ℕ
  h : ℕ
  content : Content
deriving Repr

/-- `clip.size` in MoviePy: the pair `(width, height)`. -/
def Clip.size (c : Clip) : ℕ × ℕ := (c.w, c.h)

/-- External MoviePy `clip.subclip(a, b)`: same frame geometry and rate,
duration `b - a`, content restricted to the window `[a, b]`. -/
def subclip (c : Clip) (a b : ℚ) : Clip :=
  { c with duration := b - a, content := .subclipOf c.content a b }

/-- External MoviePy `clip.crossfadein(d)`: an opacity ramp at the start;
metadata unchanged. -/
def crossfadein (c : Clip) (d : ℚ) : Clip :=
  { c with content := .crossfadeinOf c.content d }

/-- External MoviePy `clip.crossfadeout(d)`: an opacity ramp at the end;
metadata unchanged. -/
def crossfadeout (c : Clip) (d : ℚ) : Clip :=
  { c with content := .crossfadeoutOf c.content d }

/-- External MoviePy `clip.fadein(d, initial_color=[r, g, b])`; metadata
unchanged. -/
def fadein (c : Clip) (d : ℚ) (r g b : ℕ) : Clip :=
  { c with content := .fadeinOf c.content d r g b }

/-- External MoviePy `clip.fadeout(d, final_color=[r, g, b])`; metadata
unchanged. -/
def fadeout (c : Clip) (d : ℚ) (r g b : ℕ) : Clip :=
  { c with content := .fadeoutOf c.content d r g b }

/-- External MoviePy `clip.set_position(lambda t: ...)` for the linear
lambdas used by the slide transitions; metadata unchanged. -/
def set_position (c : Clip) (p : Pos) : Clip :=
  { c with content := .positionedOf c.content p }

/-- External MoviePy `clip.set_duration(d)`. -/
def set_duration (c : Clip) (d : ℚ) : Clip :=
  { c with duration := d }

/-- External MoviePy `CompositeVideoClip([a, b], size=s)`, the only form the
repository uses (exactly two layers, explicit canvas size).  The canvas size
is the `size` argument; the duration before any `set_duration` is the larger
layer duration. -/
def compositeVideoClip2 (a b : Clip) (s : ℕ × ℕ) : Clip :=
  { duration := max a.duration b.duration
    fps := max a.fps b.fps
    w := s.1
    h := s.2
    content := .composite2 a.content b.content }

/-- External MoviePy `concatenate_videoclips(cs, padding=p)`: clip `i`
starts `p` seconds after clip `i - 1` ends, so the total duration is the sum
of the clip durations plus `(n - 1) * p` (for the plain calls the repository
makes, `p = 0`, this is the exact sum).  The frame is the componentwise
maximum of the clip frames.  MoviePy raises on an empty list; that case is
modelled as a zero clip and is unreachable from every call site proved
about below. -/
def concatenate_videoclips (cs : List Clip) (padding : ℚ) : Clip :=
  { duration := (cs.map Clip.duration).sum +
      (if cs.isEmpty then 0 else ((cs.length : ℚ) - 1) * padding)
    fps := (cs.map Clip.fps).foldl max 0
    w := (cs.map Clip.w).foldl max 0
    h := (cs.map Clip.h).foldl max 0
    content := .concatOf (cs.map Clip.content) padding }

/-- External MoviePy `clip.resize(newsize=s)`. -/
def Clip.resize (c : Clip) (s : ℕ × ℕ) : Clip :=
  { c with w := s.1, h := s.2, content := .resizedOf c.content s.1 s.2 }

/-- External MoviePy `clip.set_fps(f)`. -/
def Clip.set_fps (c : Clip) (f : ℚ) : Clip :=
  { c with fps := f, content := .withFps c.content f }

/-- `video_types.VideoWrapper`: the ComfyUI-side wrapper around a MoviePy
clip; its properties delegate to the wrapped clip. -/
structure VideoWrapper where
  clip : Clip
deriving Repr

def VideoWrapper.duration (v : VideoWrapper) : ℚ := v.clip.duration

def VideoWrapper.fps (v : VideoWrapper) : ℚ := v.clip.fps

def VideoWrapper.size (v : VideoWrapper) : ℕ × ℕ := v.clip.size

def VideoWrapper.w (v : VideoWrapper) : ℕ := v.clip.w

def VideoWrapper.h (v : VideoWrapper) : ℕ := v.clip.h

/-- The error taxonomy of the adapter core.  In the Python source both
families are `ValueError`s distinguished by message: `invalidInput` for
"Cannot normalize empty list of clips" / "No videos provided for
concatenation", `unknownTransitionKind` for "Unknown transition type: ...";
`typeError` models `VideoWrapper.__init__` rejecting a non-clip. -/
inductive AdapterError where
  | invalidInput (msg : String)
  | unknownTransitionKind (msg : String)
  | typeError (msg : String)
deriving Repr

/-- `video_types.normalize_video_params(clips, target_fps=None)`: raises on
an empty list, otherwise returns `(fps, (max width, max height))` where the
fps is the override if given, else the first clip's, and the resolution is
Python's `max(clip.w for clip in clips)` / `max(clip.h ...)` (a fold of
`max` over the nonempty list of nonnegative sizes). -/
def normalize_video_params (clips : List VideoWrapper) (target_fps : Option ℚ) :
    Except AdapterError (ℚ × (ℕ × ℕ)) :=
  match clips with
  | [] => .error (.invalidInput "Cannot normalize empty list of clips")
  | first :: _ =>
    let fps := match target_fps with
      | some f => f
      | none => first.fps
    let max_width := (clips.map VideoWrapper.w).foldl max 0
    let max_height := (clips.map VideoWrapper.h).foldl max 0
    .ok (fps, (max_width, max_height))

/-- `video_types.resize_to_target`: identity when the size already matches,
else a MoviePy resize. -/
def resize_to_target (c : Clip) (target_size : ℕ × ℕ) : Clip :=
  if c.size = target_size then c else c.resize target_size

/-- `video_types.set_fps_if_needed`: identity when the rate already matches,
else a MoviePy `set_fps`. -/
def set_fps_if_needed (c : Clip) (target_fps : ℚ) : Clip :=
  if c.fps = target_fps then c else c.set_fps target_fps

/-- The loop body of `transitions.apply_crossfade` for the clips after the
first: the last clip only fades in, every middle clip fades in then fades
out. -/
def crossfade_rest (d : ℚ) : List Clip → List Clip
  | [] => []
  | [c] => [crossfadein c d]
  | c :: c2 :: rest => crossfadeout (crossfadein c d) d :: crossfade_rest d (c2 :: rest)

/-- `transitions.apply_crossfade`: `None` on an empty list, the sole clip on
a singleton, otherwise the first clip fades out, the rest per
`crossfade_rest`, and all are concatenated with `padding = -d`. -/
def apply_crossfade (clips : List Clip) (d : ℚ) : Option Clip :=
  match clips with
  | [] => none
  | [c] => some c
  | c :: c2 :: rest =>
    some (concatenate_videoclips (crossfadeout c d :: crossfade_rest d (c2 :: rest)) (-d))

/-- The loop body of `transitions.apply_fade_black` / `apply_fade_white` for
the clips after the first: the last clip only fades in from the colour,
every middle clip fades out to it and then fades in from it. -/
def fade_rest (d : ℚ) (r g b : ℕ) : List Clip → List Clip
  | [] => []
  | [c] => [fadein c d r g b]
  | c :: c2 :: rest => fadein (fadeout c d r g b) d r g b :: fade_rest d r g b (c2 :: rest)

/-- Shared shape of `apply_fade_black` and `apply_fade_white`: every clip
but the last fades out to the colour, every clip but the first fades in from
it, and the results are concatenated with no overlap. -/
def apply_fade_color (clips : List Clip) (d : ℚ) (r g b : ℕ) : Clip :=
  match clips with
  | [] => concatenate_videoclips [] 0
  | [c] => concatenate_videoclips [c] 0
  | c :: c2 :: rest =>
    concatenate_videoclips (fadeout c d r g b :: fade_rest d r g b (c2 :: rest)) 0

/-- `transitions.apply_fade_black`: fades via the solid colour `[0, 0, 0]`. -/
def apply_fade_black (clips : List Clip) (d : ℚ) : Clip :=
  apply_fade_color clips d 0 0 0

/-- `transitions.apply_fade_white`: fades via the solid colour
`[255, 255, 255]`. -/
def apply_fade_white (clips : List Clip) (d : ℚ) : Clip :=
  apply_fade_color clips d 255 255 255

/-- The transition segment built at a junction by
`transitions.apply_slide_left`: the trailing `d` seconds of the outgoing
clip sliding from offset `0` towards `-w`, over the leading `d` seconds of
the incoming clip sliding from offset `w` towards `0`, composited on the
outgoing clip's canvas and cut to duration `d`. -/
def slide_transition_left (clip next : Clip) (d : ℚ) : Clip :=
  let w : ℚ := clip.w
  let outgoing := set_position (subclip clip (clip.duration - d) clip.duration) ⟨0, -w / d, 0⟩
  let incoming := set_position (subclip next 0 d) ⟨w, -w / d, 0⟩
  set_duration (compositeVideoClip2 outgoing incoming clip.size) d

/-- The transition segment built at a junction by
`transitions.apply_slide_right`: mirror image of `slide_transition_left`
(outgoing slides from `0` towards `w`, incoming from `-w` towards `0`). -/
def slide_transition_right (clip next : Clip) (d : ℚ) : Clip :=
  let w : ℚ := clip.w
  let outgoing := set_position (subclip clip (clip.duration - d) clip.duration) ⟨0, w / d, 0⟩
  let incoming := set_position (subclip next 0 d) ⟨-w, w / d, 0⟩
  set_duration (compositeVideoClip2 outgoing incoming clip.size) d

/-- The `result_clips` list built by the loop of
`transitions.apply_slide_left` (invoked only on lists of length at least 2):
before the last clip, its body up to `duration - d` (when strictly longer
than `d`) followed by the junction transition; for the last clip, its body
from `d` on (when strictly longer than `d`). -/
def slide_segments_left (d : ℚ) : List Clip → List Clip
  | [] => []
  | [c] => if d < c.duration then [subclip c d c.duration] else []
  | c :: next :: rest =>
    (if d < c.duration then [subclip c 0 (c.duration - d)] else []) ++
      (slide_transition_left c next d :: slide_segments_left d (next :: rest))

/-- The `result_clips` list built by the loop of
`transitions.apply_slide_right`. -/
def slide_segments_right (d : ℚ) : List Clip → List Clip
  | [] => []
  | [c] => if d < c.duration then [subclip c d c.duration] else []
  | c :: next :: rest =>
    (if d < c.duration then [subclip c 0 (c.duration - d)] else []) ++
      (slide_transition_right c next d :: slide_segments_right d (next :: rest))

/-- `transitions.apply_slide_left`: `None` on an empty list, the sole clip
on a singleton, otherwise the plain concatenation of
`slide_segments_left`. -/
def apply_slide_left (clips : List Clip) (d : ℚ) : Option Clip :=
  match clips with
  | [] => none
  | [c] => some c
  | c :: c2 :: rest => some (concatenate_videoclips (slide_segments_left d (c :: c2 :: rest)) 0)

/-- `transitions.apply_slide_right`: `None` on an empty list, the sole clip
on a singleton, otherwise the plain concatenation of
`slide_segments_right`. -/
def apply_slide_right (clips : List Clip) (d : ℚ) : Option Clip :=
  match clips with
  | [] => none
  | [c] => some c
  | c :: c2 :: rest => some (concatenate_videoclips (slide_segments_right d (c :: c2 :: rest)) 0)

/-- The `result_clips` list built by the (identical) loops of
`transitions.apply_zoom_in` and `transitions.apply_zoom_out`: before the
last clip, its body up to `duration - d` (when strictly longer than `d`),
then its trailing window `[max 0 (duration - d), duration]` with a
crossfade-out, then the FULL next clip with a crossfade-in; the last clip is
appended unchanged (so every clip after the first occurs twice: once as the
crossfaded-in copy and once via its own iteration). -/
def zoom_segments (d : ℚ) : List Clip → List Clip
  | [] => []
  | [c] => [c]
  | c :: next :: rest =>
    (if d < c.duration then [subclip c 0 (c.duration - d)] else []) ++
      (crossfadeout (subclip c (max 0 (c.duration - d)) c.duration) d ::
        crossfadein next d :: zoom_segments d (next :: rest))

/-- `transitions.apply_zoom_in`: concatenation of `zoom_segments` with
`padding = -d` ("simplified to crossfade for now" per its comment). -/
def apply_zoom_in (clips : List Clip) (d : ℚ) : Clip :=
  concatenate_videoclips (zoom_segments d clips) (-d)

/-- `transitions.apply_zoom_out`: textually the same body as
`apply_zoom_in` ("just use crossfade for simplicity" per its comment). -/
def apply_zoom_out (clips : List Clip) (d : ℚ) : Clip :=
  concatenate_videoclips (zoom_segments d clips) (-d)

/-- `transitions.TRANSITION_FUNCTIONS`: the name-to-function registry.
Entries whose Python function can return `None` (crossfade, slides, on
lists of length below 2) are typed `Option Clip`; the total ones are
wrapped in `some`. -/
def TRANSITION_FUNCTIONS : List (String × (List Clip → ℚ → Option Clip)) :=
  [("none", fun clips _ => some (concatenate_videoclips clips 0)),
   ("crossfade", apply_crossfade),
   ("fade_black", fun clips d => some (apply_fade_black clips d)),
   ("fade_white", fun clips d => some (apply_fade_white clips d)),
   ("slide_left", apply_slide_left),
   ("slide_right", apply_slide_right),
   ("zoom_in", fun clips d => some (apply_zoom_in clips d)),
   ("zoom_out", fun clips d => some (apply_zoom_out clips d))]

/-- The enumerated transition kinds, i.e. the keys of
`TRANSITION_FUNCTIONS` in registry order. -/
def TRANSITION_KEYS : List String :=
  ["none", "crossfade", "fade_black", "fade_white", "slide_left", "slide_right",
   "zoom_in", "zoom_out"]

/-- `transitions.apply_transition`: raises `ValueError` ("Unknown transition
type") when the kind is not a registry key, otherwise dispatches to the
registered function. -/
def apply_transition (clips : List Clip) (transition_type : String) (duration : ℚ) :
    Except AdapterError (Option Clip) :=
  match TRANSITION_FUNCTIONS.find? (fun p => p.1 == transition_type) with
  | none => .error (.unknownTransitionKind ("Unknown transition type: " ++ transition_type))
  | some p => .ok (p.2 clips duration)

/-- `concatenate_node.VideoConcatenate.concatenate` (after the marshalling
that unwraps the ComfyUI singleton input lists): raises on an empty video
list; returns the sole wrapper unchanged on a singleton; otherwise
normalizes parameters over all videos, conforms each clip (rate, then
size), and either plainly concatenates (mode "simple" or kind "none") or
dispatches to `apply_transition`.  A `None` from the transition layer would
make `VideoWrapper.__init__` raise `TypeError`; with at least two clips
that branch is unreachable. -/
def VideoConcatenate.concatenate (videos : List VideoWrapper) (mode : String)
    (transition_type : String) (transition_duration : ℚ) : Except AdapterError VideoWrapper :=
  match videos with
  | [] => .error (.invalidInput "No videos provided for concatenation")
  | [v] => .ok v
  | v :: v2 :: rest =>
    match normalize_video_params (v :: v2 :: rest) none with
    | .error e => .error e
    | .ok (target_fps, target_size) =>
      let normalized_clips := (v :: v2 :: rest).map
        (fun vw => resize_to_target (set_fps_if_needed vw.clip target_fps) target_size)
      if mode = "simple" ∨ transition_type = "none" then
        .ok ⟨concatenate_videoclips normalized_clips 0⟩
      else
        match apply_transition normalized_clips transition_type transition_duration with
        | .error e => .error e
        | .ok (some result) => .ok ⟨result⟩
        | .ok none => .error (.typeError "Expected VideoClip, got NoneType")


/-! Concrete test clips, shared by the evaluation theorems below. -/

/-- A 3-second, 30 fps, 640x480 source clip. -/
def clipA : Clip := { duration := 3, fps := 30, w := 640, h := 480, content := .source 0 }

/-- A 3-second, 24 fps, 1280x720 source clip. -/
def clipB : Clip := { duration := 3, fps := 24, w := 1280, h := 720, content := .source 1 }

/-- A 3-second, 24 fps, 1280x720 source clip, distinct from `clipB`. -/
def clipC : Clip := { duration := 3, fps := 24, w := 1280, h := 720, content := .source 2 }

/-- A 3-second, 24 fps, 1280x720 source clip, distinct from `clipB` and
`clipC`. -/
def clipD : Clip := { duration := 3, fps := 24, w := 1280, h := 720, content := .source 3 }

/-! Helper lemmas about Python's `max` over a list, i.e. `List.foldl max`. -/

theorem le_foldl_max (a : ℕ) (l : List ℕ) : a ≤ l.foldl max a := by
  induction l generalizing a with
  | nil => exact le_rfl
  | cons x xs ih => exact le_trans (le_max_left a x) (ih (max a x))

theorem mem_le_foldl_max (x : ℕ) (l : List ℕ) : ∀ a, x ∈ l → x ≤ l.foldl max a := by
  induction l with
  | nil => intro a h; cases h
  | cons y ys ih =>
    intro a h
    rcases List.mem_cons.mp h with h | h
    · subst h; exact le_trans (le_max_right a x) (le_foldl_max _ _)
    · exact ih (max a y) h

theorem foldl_max_attained (l : List ℕ) : ∀ a, l.foldl max a = a ∨ l.foldl max a ∈ l := by
  induction l with
  | nil => intro a; exact Or.inl rfl
  | cons x xs ih =>
    intro a
    rcases ih (max a x) with h | h
    · rcases Nat.le_total a x with hax | hxa
      · right
        rw [List.foldl_cons, h, max_eq_right hax]
        exact List.mem_cons_self x xs
      · left
        rw [List.foldl_cons, h, max_eq_left hxa]
    · right
      rw [List.foldl_cons]
      exact List.mem_cons_of_mem x h

theorem foldl_max_is_list_max (f : VideoWrapper → ℕ) (clips : List VideoWrapper)
    (first : VideoWrapper) (hmem : first ∈ clips) :
    (∀ c ∈ clips, f c ≤ (clips.map f).foldl max 0) ∧
      (∃ c ∈ clips, f c = (clips.map f).foldl max 0) := by
  constructor
  · intro c hc
    exact mem_le_foldl_max (f c) _ 0 (List.mem_map_of_mem f hc)
  · rcases foldl_max_attained (clips.map f) 0 with h0 | hm
    · have hle := mem_le_foldl_max (f first) (clips.map f) 0 (List.mem_map_of_mem f hmem)
      exact ⟨first, hmem, by omega⟩
    · rcases List.mem_map.mp hm with ⟨c, hc, hcw⟩
      exact ⟨c, hc, hcw⟩

/-- C1: for every non-empty clip sequence, `normalize_video_params` returns
a target resolution that is the element-wise maximum of the input widths
and heights: the returned width bounds every clip's width and is attained
by some clip, and likewise for the height (so it is never an average and
never merely the first clip's size). -/
theorem normalize_resolution_componentwise_max (clips : List VideoWrapper)
    (target_fps : Option ℚ) (h : clips ≠ []) :
    ∃ fps W H, normalize_video_params clips target_fps = .ok (fps, (W, H)) ∧
      (∀ c ∈ clips, c.w ≤ W) ∧ (∃ c ∈ clips, c.w = W) ∧
      (∀ c ∈ clips, c.h ≤ H) ∧ (∃ c ∈ clips, c.h = H) := by
  match clips with
  | [] => exact absurd rfl h
  | first :: rest =>
    have hw := foldl_max_is_list_max VideoWrapper.w (first :: rest) first
      (List.mem_cons_self first rest)
    have hh := foldl_max_is_list_max VideoWrapper.h (first :: rest) first
      (List.mem_cons_self first rest)
    exact ⟨_, _, _, rfl, hw.1, hw.2, hh.1, hh.2⟩

/-- Witness for C1 at the concrete pair `[clipA, clipB]`. -/
theorem normalize_resolution_componentwise_max_witness :
    ∃ fps W H, normalize_video_params [⟨clipA⟩, ⟨clipB⟩] none = .ok (fps, (W, H)) ∧
      (∀ c ∈ [(⟨clipA⟩ : VideoWrapper), ⟨clipB⟩], c.w ≤ W) ∧
      (∃ c ∈ [(⟨clipA⟩ : VideoWrapper), ⟨clipB⟩], c.w = W) ∧
      (∀ c ∈ [(⟨clipA⟩ : VideoWrapper), ⟨clipB⟩], c.h ≤ H) ∧
      (∃ c ∈ [(⟨clipA⟩ : VideoWrapper), ⟨clipB⟩], c.h = H) :=
  normalize_resolution_componentwise_max [⟨clipA⟩, ⟨clipB⟩] none (List.cons_ne_nil _ _)

/-! Conformance lemmas for `resize_to_target` / `set_fps_if_needed`. -/

theorem resize_to_target_size (c : Clip) (s : ℕ × ℕ) : (resize_to_target c s).size = s := by
  unfold resize_to_target
  by_cases h : c.size = s
  · rw [if_pos h]; exact h
  · rw [if_neg h]; rfl

theorem resize_to_target_fps (c : Clip) (s : ℕ × ℕ) : (resize_to_target c s).fps = c.fps := by
  unfold resize_to_target
  by_cases h : c.size = s
  · rw [if_pos h]
  · rw [if_neg h]; rfl

theorem set_fps_if_needed_fps (c : Clip) (f : ℚ) : (set_fps_if_needed c f).fps = f := by
  unfold set_fps_if_needed
  by_cases h : c.fps = f
  · rw [if_pos h]; exact h
  · rw [if_neg h]; rfl

theorem resize_to_target_eq_self (c : Clip) (s : ℕ × ℕ) (h : c.size = s) :
    resize_to_target c s = c := by
  unfold resize_to_target; rw [if_pos h]

theorem set_fps_if_needed_eq_self (c : Clip) (f : ℚ) (h : c.fps = f) :
    set_fps_if_needed c f = c := by
  unfold set_fps_if_needed; rw [if_pos h]

/-- C8: conforming is idempotent: a clip whose size already equals the
target is returned unchanged by `resize_to_target`, a clip whose rate
already equals the target is returned unchanged by `set_fps_if_needed`, and
conforming (resample then resize) an already-conformed clip to the same
target is a no-op. -/
theorem conforming_idempotent (c : Clip) (target_size : ℕ × ℕ) (target_fps : ℚ)
    (hs : c.size = target_size) (hf : c.fps = target_fps) :
    resize_to_target c target_size = c ∧ set_fps_if_needed c target_fps = c ∧
      resize_to_target (set_fps_if_needed
          (resize_to_target (set_fps_if_needed c target_fps) target_size) target_fps) target_size
        = resize_to_target (set_fps_if_needed c target_fps) target_size := by
  refine ⟨resize_to_target_eq_self c target_size hs, set_fps_if_needed_eq_self c target_fps hf, ?_⟩
  have hfps : (resize_to_target (set_fps_if_needed c target_fps) target_size).fps = target_fps := by
    rw [resize_to_target_fps, set_fps_if_needed_fps]
  have hsize : (resize_to_target (set_fps_if_needed c target_fps) target_size).size = target_size :=
    resize_to_target_size _ _
  rw [set_fps_if_needed_eq_self _ _ hfps]
  exact resize_to_target_eq_self _ _ hsize

/-- Witness for C8: `clipA` is already conformed to `((640, 480), 30)`. -/
theorem conforming_idempotent_witness :
    resize_to_target clipA (640, 480) = clipA ∧ set_fps_if_needed clipA 30 = clipA ∧
      resize_to_target (set_fps_if_needed
          (resize_to_target (set_fps_if_needed clipA 30) (640, 480)) 30) (640, 480)
        = resize_to_target (set_fps_if_needed clipA 30) (640, 480) :=
  conforming_idempotent clipA (640, 480) 30 rfl rfl

/-- C9: a singleton video list is returned unchanged by
`VideoConcatenate.concatenate` before any normalization or transition-kind
validation, for every mode, every transition type (including strings
outside the enumerated set) and every duration. -/
theorem singleton_concatenate_returns_input (v : VideoWrapper) (mode transition_type : String)
    (transition_duration : ℚ) :
    VideoConcatenate.concatenate [v] mode transition_type transition_duration = .ok v := rfl

/-- C10: in mode "simple", the output of `VideoConcatenate.concatenate` is
independent of `transition_type` and `transition_duration`: two runs on the
same videos that differ only in those inputs coincide. -/
theorem simple_mode_ignores_transition_params (videos : List VideoWrapper)
    (t1 t2 : String) (d1 d2 : ℚ) :
    VideoConcatenate.concatenate videos "simple" t1 d1 =
      VideoConcatenate.concatenate videos "simple" t2 d2 := by
  match videos with
  | [] => rfl
  | [v] => rfl
  | v :: v2 :: rest => rfl

/-- Durations of the crossfaded tail segments equal the input durations
(the crossfade ramps never change a clip's duration). -/
theorem crossfade_rest_map_duration (d : ℚ) :
    ∀ l : List Clip, (crossfade_rest d l).map Clip.duration = l.map Clip.duration
  | [] => rfl
  | [_] => rfl
  | c :: c2 :: rest => by
    show Clip.duration (crossfadeout (crossfadein c d) d) ::
        (crossfade_rest d (c2 :: rest)).map Clip.duration = Clip.duration c :: _
    rw [crossfade_rest_map_duration d (c2 :: rest)]
    rfl

/-- The duration field of a non-empty concatenation. -/
theorem concatenate_duration_cons (c : Clip) (cs : List Clip) (p : ℚ) :
    (concatenate_videoclips (c :: cs) p).duration =
      ((c :: cs).map Clip.duration).sum + (((c :: cs).length : ℚ) - 1) * p := rfl

/-- C2: for at least two clips each strictly longer than the transition
duration `d`, the crossfade composite is defined and its timeline duration
is the sum of the input durations minus `(n - 1) * d` (one overlap of `d`
per junction, from the `padding = -d` concatenation). -/
theorem crossfade_timeline_duration (clips : List Clip) (d : ℚ)
    (h2 : 2 ≤ clips.length) (hlong : ∀ c ∈ clips, d < c.duration) :
    ∃ timeline, apply_crossfade clips d = some timeline ∧
      timeline.duration = (clips.map Clip.duration).sum - ((clips.length : ℚ) - 1) * d := by
  match clips with
  | [] => simp at h2
  | [c] => simp at h2
  | c :: c2 :: rest =>
    refine ⟨_, rfl, ?_⟩
    rw [concatenate_duration_cons]
    have hmap := crossfade_rest_map_duration d (c2 :: rest)
    have hlen : (crossfade_rest d (c2 :: rest)).length = (c2 :: rest).length := by
      have h := congrArg List.length hmap
      simpa using h
    have hdur : Clip.duration (crossfadeout c d) = c.duration := rfl
    simp only [List.map_cons, List.sum_cons, List.length_cons, hmap, hlen, hdur]
    push_cast
    ring

/-- Witness for C2: two 3-second clips crossfaded over 1 second give a
5-second timeline. -/
theorem crossfade_timeline_duration_witness :
    ∃ timeline, apply_crossfade [clipA, clipB] 1 = some timeline ∧ timeline.duration = 5 := by
  obtain ⟨tl, h1, h2⟩ := crossfade_timeline_duration [clipA, clipB] 1 (by decide) (by decide)
  refine ⟨tl, h1, ?_⟩
  rw [h2]
  norm_num [clipA, clipB]

/-- C4: `VideoConcatenate.concatenate` (the composite entry point) fails
with the invalid-input error on an empty video sequence and degenerates to
returning the sole wrapper unchanged on a singleton, for every transition
kind other than "none" (and indeed for every kind), before any transition
dispatch. -/
theorem undersized_sequence_behavior (mode transition_type : String) (d : ℚ)
    (v : VideoWrapper) (_h_notnone : transition_type ≠ "none") :
    (∃ msg, VideoConcatenate.concatenate [] mode transition_type d =
        .error (.invalidInput msg)) ∧
      VideoConcatenate.concatenate [v] mode transition_type d = .ok v :=
  ⟨⟨"No videos provided for concatenation", rfl⟩, rfl⟩

/-- Witness for C4 at the crossfade kind. -/
theorem undersized_sequence_behavior_witness :
    (∃ msg, VideoConcatenate.concatenate [] "transition" "crossfade" 1 =
        .error (.invalidInput msg)) ∧
      VideoConcatenate.concatenate [⟨clipA⟩] "transition" "crossfade" 1 = .ok ⟨clipA⟩ :=
  undersized_sequence_behavior "transition" "crossfade" 1 ⟨clipA⟩ (by decide)

/-- C5: `apply_transition` fails with the unknown-transition-kind error
exactly on kinds outside the enumerated registry keys; for every kind
inside the set it never produces that error. -/
theorem transition_kind_validation (clips : List Clip) (d : ℚ) (transition_type : String) :
    (transition_type ∉ TRANSITION_KEYS →
      ∃ msg, apply_transition clips transition_type d =
        .error (.unknownTransitionKind msg)) ∧
    (transition_type ∈ TRANSITION_KEYS →
      ∀ e, apply_transition clips transition_type d ≠ .error (.unknownTransitionKind e)) := by
  have hkeys : TRANSITION_FUNCTIONS.map Prod.fst = TRANSITION_KEYS := rfl
  constructor
  · intro hnot
    have hfind : TRANSITION_FUNCTIONS.find? (fun p => p.1 == transition_type) = none := by
      rw [List.find?_eq_none]
      intro p hp hbeq
      apply hnot
      have hp1 : p.1 = transition_type := by simpa using hbeq
      rw [← hp1, ← hkeys]
      exact List.mem_map_of_mem Prod.fst hp
    refine ⟨"Unknown transition type: " ++ transition_type, ?_⟩
    unfold apply_transition
    rw [hfind]
  · intro hmem e
    cases hfind : TRANSITION_FUNCTIONS.find? (fun p => p.1 == transition_type) with
    | none =>
      rw [List.find?_eq_none] at hfind
      rw [← hkeys] at hmem
      rcases List.mem_map.mp hmem with ⟨p, hp, hfst⟩
      have h := hfind p hp
      simp [hfst] at h
    | some p =>
      unfold apply_transition
      rw [hfind]
      intro hcon
      cases hcon

/-- Witness for C5: "nonsense" is rejected, "crossfade" never yields the
unknown-kind error. -/
theorem transition_kind_validation_witness :
    (∃ msg, apply_transition [clipA, clipB] "nonsense" 1 =
        .error (.unknownTransitionKind msg)) ∧
      (∀ e, apply_transition [clipA, clipB] "crossfade" 1 ≠
        .error (.unknownTransitionKind e)) :=
  ⟨(transition_kind_validation [clipA, clipB] 1 "nonsense").1 (by decide),
   (transition_kind_validation [clipA, clipB] 1 "crossfade").2 (by decide)⟩

/-- C7: the composited slide transition segment keeps the canvas: its frame
size equals the common conformed frame size of the two adjacent input
clips, for both slide directions. -/
theorem slide_transition_frame_size (a b : Clip) (d : ℚ) (s : ℕ × ℕ)
    (ha : a.size = s) (_hb : b.size = s) :
    (slide_transition_left a b d).size = s ∧ (slide_transition_right a b d).size = s := by
  have hl : (slide_transition_left a b d).size = a.size := rfl
  have hr : (slide_transition_right a b d).size = a.size := rfl
  rw [hl, hr, ha]
  exact ⟨rfl, rfl⟩

/-- Witness for C7 at the equal-size clips `clipB`, `clipC`. -/
theorem slide_transition_frame_size_witness :
    (slide_transition_left clipB clipC 1).size = (1280, 720) ∧
      (slide_transition_right clipB clipC 1).size = (1280, 720) :=
  slide_transition_frame_size clipB clipC 1 (1280, 720) rfl rfl

/-- C6 evaluation: with three 3-second clips and a 1-second slide, the
middle clip's leading second is extracted into the first junction's
transition segment (inside `slide_transition_left clipB clipC 1`, as
`subclip clipC 0 1`) AND kept in the middle clip's own "main part"
`subclip clipC 0 2`, so the timeline lasts 8 seconds rather than the
7 = 3 + 3 + 3 - 2 seconds that non-overlapping remainders would give. -/
theorem slide_left_duplicates_middle_clip_leading :
    slide_segments_left 1 [clipB, clipC, clipD] =
      [subclip clipB 0 (3 - 1), slide_transition_left clipB clipC 1,
       subclip clipC 0 (3 - 1), slide_transition_left clipC clipD 1,
       subclip clipD 1 3] ∧
      (∃ timeline, apply_slide_left [clipB, clipC, clipD] 1 = some timeline ∧
        timeline.duration = 8) := by
  constructor
  · rfl
  · refine ⟨_, rfl, ?_⟩
    norm_num [slide_segments_left, slide_transition_left, concatenate_videoclips, subclip,
      set_duration, set_position, compositeVideoClip2, clipB, clipC, clipD]

/-- C3 evaluation: `apply_zoom_in` and `apply_zoom_out` coincide with each
other, but not with `apply_crossfade`: on two 3-second clips with a
1-second transition the zoom timeline lasts 6 seconds (its segment list
contains the second clip twice, once crossfaded-in and once plain) while
the crossfade timeline lasts 5 seconds. -/
theorem zoom_not_crossfade_alias :
    apply_zoom_in [clipA, clipB] 1 = apply_zoom_out [clipA, clipB] 1 ∧
      (apply_zoom_in [clipA, clipB] 1).duration = 6 ∧
      ∃ cf, apply_crossfade [clipA, clipB] 1 = some cf ∧ cf.duration = 5 ∧
        apply_zoom_in [clipA, clipB] 1 ≠ cf := by
  have h6 : (apply_zoom_in [clipA, clipB] 1).duration = 6 := by
    norm_num [apply_zoom_in, zoom_segments, concatenate_videoclips, subclip, crossfadein,
      crossfadeout, max_def, clipA, clipB]
  have hcf : apply_crossfade [clipA, clipB] 1 =
      some (concatenate_videoclips [crossfadeout clipA 1, crossfadein clipB 1] (-1)) := rfl
  have hcfdur :
      (concatenate_videoclips [crossfadeout clipA 1, crossfadein clipB 1] (-1)).duration = 5 := by
    norm_num [concatenate_videoclips, crossfadein, crossfadeout, clipA, clipB]
  refine ⟨rfl, h6, _, hcf, hcfdur, ?_⟩
  intro h
  rw [h, hcfdur] at h6
  norm_num at h6

end MovisAdapter
